import Mathlib

/-!
Verification of the PostPolice caching proxy server (the Express + Valkey
cache service in the repository: routes /check-summary, /cache-summary,
/clear-cache, /reset-stats, /metrics, /health).

The embedding models:
  * the key fingerprint hashContent(content) = "summary:" + hex(sha256(content)),
    with a full executable SHA-256 (FIPS 180-4) over the UTF-8 bytes of the
    content, since the server calls crypto.createHash("sha256");
  * the Valkey store as an association list from keys to entries carrying an
    absolute expiry time (SET key value EX ttl semantics), together with a
    reachability flag: reachable = false models the Valkey client rejecting
    every command (connection failed / retries exhausted), which in the
    try/catch blocks of the handlers surfaces as the 500 error branch;
  * the HTTP handlers as pure functions from server state and request body to
    a response and a new server state.  Request-body fields are Option String
    (absent = none), and JavaScript truthiness checks (!content) are modelled
    by falsy, which is true for both a missing field and the empty string.
-/

/-! ## 32-bit word arithmetic on Nat (all words kept < 2^32) -/

def M32 : Nat := 4294967296

def add32 (a b : Nat) : Nat := (a + b) % M32

def rotr32 (n x : Nat) : Nat := ((x >>> n) ||| (x <<< (32 - n))) % M32

def not32 (x : Nat) : Nat := Nat.xor x 4294967295

def ch32 (e f g : Nat) : Nat := Nat.xor (Nat.land e f) (Nat.land (not32 e) g)

def maj32 (a b c : Nat) : Nat :=
  Nat.xor (Nat.xor (Nat.land a b) (Nat.land a c)) (Nat.land b c)

def bigSigma0 (x : Nat) : Nat := Nat.xor (Nat.xor (rotr32 2 x) (rotr32 13 x)) (rotr32 22 x)

def bigSigma1 (x : Nat) : Nat := Nat.xor (Nat.xor (rotr32 6 x) (rotr32 11 x)) (rotr32 25 x)

def smallSigma0 (x : Nat) : Nat := Nat.xor (Nat.xor (rotr32 7 x) (rotr32 18 x)) (x >>> 3)

def smallSigma1 (x : Nat) : Nat := Nat.xor (Nat.xor (rotr32 17 x) (rotr32 19 x)) (x >>> 10)

/-- Round constants of SHA-256 (FIPS 180-4 section 4.2.2), in decimal. -/
def shaK : List Nat :=
  [1116352408, 1899447441, 3049323471, 3921009573,
   961987163, 1508970993, 2453635748, 2870763221,
   3624381080, 310598401, 607225278, 1426881987,
   1925078388, 2162078206, 2614888103, 3248222580,
   3835390401, 4022224774, 264347078, 604807628,
   770255983, 1249150122, 1555081692, 1996064986,
   2554220882, 2821834349, 2952996808, 3210313671,
   3336571891, 3584528711, 113926993, 338241895,
   666307205, 773529912, 1294757372, 1396182291,
   1695183700, 1986661051, 2177026350, 2456956037,
   2730485921, 2820302411, 3259730800, 3345764771,
   3516065817, 3600352804, 4094571909, 275423344,
   430227734, 506948616, 659060556, 883997877,
   958139571, 1322822218, 1537002063, 1747873779,
   1955562222, 2024104815, 2227730452, 2361852424,
   2428436474, 2756734187, 3204031479, 3329325298]

/-- The eight working variables of the SHA-256 compression function. -/
structure Hash8 where
  a : Nat
  b : Nat
  c : Nat
  d : Nat
  e : Nat
  f : Nat
  g : Nat
  h : Nat
deriving Repr, DecidableEq

/-- Initial hash value of SHA-256 (FIPS 180-4 section 5.3.3), in decimal. -/
def shaH0 : Hash8 :=
  ⟨1779033703, 3144134277, 1013904242, 2773480762,
   1359893119, 2600822924, 528734635, 1541459225⟩

/-- Big-endian bytes to 32-bit words, four bytes per word. -/
def bytesToWords : List Nat → List Nat
  | b0 :: b1 :: b2 :: b3 :: rest =>
      (((b0 <<< 24) + (b1 <<< 16) + (b2 <<< 8) + b3) % M32) :: bytesToWords rest
  | _ => []

/-- Extend the 16-word message block by the given number of schedule words. -/
def extendSchedule (w : Array Nat) : Nat → Array Nat
  | 0 => w
  | n + 1 =>
      let t := w.size
      let x := (w.getD (t - 16) 0 + smallSigma0 (w.getD (t - 15) 0)
                + w.getD (t - 7) 0 + smallSigma1 (w.getD (t - 2) 0)) % M32
      extendSchedule (w.push x) n

/-- One round of the SHA-256 compression function. -/
def shaRound (s : Hash8) (ki wi : Nat) : Hash8 :=
  let t1 := (s.h + bigSigma1 s.e + ch32 s.e s.f s.g + ki + wi) % M32
  let t2 := (bigSigma0 s.a + maj32 s.a s.b s.c) % M32
  ⟨(t1 + t2) % M32, s.a, s.b, s.c, (s.d + t1) % M32, s.e, s.f, s.g⟩

def addHash (x y : Hash8) : Hash8 :=
  ⟨add32 x.a y.a, add32 x.b y.b, add32 x.c y.c, add32 x.d y.d,
   add32 x.e y.e, add32 x.f y.f, add32 x.g y.g, add32 x.h y.h⟩

/-- Process one 64-byte block. -/
def compressBlock (hv : Hash8) (block : List Nat) : Hash8 :=
  let w := extendSchedule (List.toArray (bytesToWords block)) 48
  let s := (List.range 64).foldl (fun s i => shaRound s (shaK.getD i 0) (w.getD i 0)) hv
  addHash hv s

/-- Process the given number of 64-byte blocks of the padded message. -/
def processBlocks (hv : Hash8) (l : List Nat) : Nat → Hash8
  | 0 => hv
  | n + 1 => processBlocks (compressBlock hv (l.take 64)) (l.drop 64) n

/-- A Nat rendered as the given count of big-endian bytes. -/
def beBytes (n count : Nat) : List Nat :=
  (List.range count).map (fun i => (n >>> (8 * (count - 1 - i))) % 256)

/-- SHA-256 padding: append 0x80, zero bytes to 56 mod 64, then the 64-bit
big-endian bit length. -/
def padBytes (msg : List Nat) : List Nat :=
  let len := msg.length
  let zeros := (119 - len % 64) % 64
  msg ++ [128] ++ List.replicate zeros 0 ++ beBytes (8 * len) 8

def hashToBytes (hv : Hash8) : List Nat :=
  beBytes hv.a 4 ++ beBytes hv.b 4 ++ beBytes hv.c 4 ++ beBytes hv.d 4 ++
  beBytes hv.e 4 ++ beBytes hv.f 4 ++ beBytes hv.g 4 ++ beBytes hv.h 4

/-- SHA-256 of a byte sequence, as the 32 digest bytes. -/
def sha256 (msg : List Nat) : List Nat :=
  let padded := padBytes msg
  hashToBytes (processBlocks shaH0 padded (padded.length / 64))

/-- Lowercase hexadecimal digit. -/
def hexDigit (n : Nat) : Char :=
  if n < 10 then Char.ofNat (48 + n) else Char.ofNat (87 + n)

def byteToHex (b : Nat) : String :=
  String.mk [hexDigit (b / 16), hexDigit (b % 16)]

/-- Lowercase hex encoding of a byte sequence, two digits per byte. -/
def bytesToHex : List Nat → String
  | [] => ""
  | b :: bs => byteToHex b ++ bytesToHex bs

/-- UTF-8 encoding of one character. -/
def utf8Char (c : Char) : List Nat :=
  let n := c.toNat
  if n < 128 then [n]
  else if n < 2048 then [192 + n / 64, 128 + n % 64]
  else if n < 65536 then [224 + n / 4096, 128 + (n / 64) % 64, 128 + n % 64]
  else [240 + n / 262144, 128 + (n / 4096) % 64, 128 + (n / 64) % 64, 128 + n % 64]

/-- UTF-8 byte sequence of a string. -/
def utf8Bytes (s : String) : List Nat :=
  s.data.foldr (fun c acc => utf8Char c ++ acc) []

/-- Embedding of hashContent: the cache key for a content string, namely
"summary:" followed by the lowercase hex SHA-256 digest of its UTF-8 bytes. -/
def hashContent (content : String) : String :=
  "summary:" ++ bytesToHex (sha256 (utf8Bytes content))

/-! ## The cache server model -/

/-- Embedding of TTL_SECONDS, the fixed expiry used on every cache write. -/
def TTL_SECONDS : Nat := 600

/-- One stored value together with its absolute expiry time (seconds). -/
structure Entry where
  value : String
  expiresAt : Nat
deriving Repr, DecidableEq

/-- The backing Valkey store: keyed entries plus a reachability flag.
reachable = false models every client command rejecting (connection lost and
retries exhausted), which the route handlers observe as a thrown error. -/
structure Store where
  entries : List (String × Entry)
  reachable : Bool
deriving Repr, DecidableEq

/-- GET key: the stored value, provided the entry exists and is unexpired. -/
def storeGet (s : Store) (now : Nat) (k : String) : Option String :=
  match s.entries.lookup k with
  | some e => if now < e.expiresAt then some e.value else none
  | none => none

/-- SET key value EX ttl: (over)write the key with expiry now + ttl. -/
def storeSet (s : Store) (now : Nat) (k v : String) (ttl : Nat) : Store :=
  { s with entries := (k, ⟨v, now + ttl⟩) :: s.entries.filter (fun p => !(p.1 == k)) }

/-- DBSIZE: number of keys in the whole store. -/
def dbsize (s : Store) : Nat := s.entries.length

/-- FLUSHALL: delete every entry in the entire key space. -/
def flushall (s : Store) : Store := { s with entries := [] }

/-- Process state of the server: the shared store handle plus the module-level
cacheHits / cacheMisses counters. -/
structure ServerState where
  store : Store
  cacheHits : Nat
  cacheMisses : Nat
deriving Repr, DecidableEq

/-- JavaScript truthiness of an optional string field: !field holds when the
field is absent or the empty string. -/
def falsy : Option String → Bool
  | none => true
  | some s => s == ""

/-- Response of POST /check-summary: 200 with hit flag and optional summary,
400 on validation failure, 500 when the store command throws. -/
inductive CheckResponse where
  | ok (hit : Bool) (summary : Option String)
  | badRequest (error : String)
  | serverError (error : String)
deriving Repr, DecidableEq

/-- Response of POST /cache-summary. -/
inductive StoreResponse where
  | ok (stored : Bool)
  | badRequest (error : String)
  | serverError (error : String)
deriving Repr, DecidableEq

/-- Response of POST /clear-cache and POST /reset-stats. -/
inductive AdminResponse where
  | ok (success : Bool) (message : String)
  | serverError (error : String)
deriving Repr, DecidableEq

/-- Response of GET /health; the second field is named valkey in the JSON. -/
structure HealthResponse where
  status : String
  valkey : String
deriving Repr, DecidableEq

/-- Embedding of the POST /check-summary handler: validate content, GET the
hashed key, on a truthy cached value count a hit and return it, otherwise
count a miss; a thrown store error becomes the 500 catch branch. -/
def checkSummary (st : ServerState) (now : Nat) (content : Option String) :
    CheckResponse × ServerState :=
  if falsy content then (.badRequest "content is required", st)
  else if st.store.reachable then
    match storeGet st.store now (hashContent (content.getD "")) with
    | some cached =>
        if cached == "" then
          (.ok false none, { st with cacheMisses := st.cacheMisses + 1 })
        else
          (.ok true (some cached), { st with cacheHits := st.cacheHits + 1 })
    | none => (.ok false none, { st with cacheMisses := st.cacheMisses + 1 })
  else (.serverError "cache check failed", st)

/-- Embedding of the POST /cache-summary handler: validate both fields, then
SET the hashed key with the fixed TTL; a thrown store error becomes 500. -/
def cacheSummary (st : ServerState) (now : Nat) (content summary : Option String) :
    StoreResponse × ServerState :=
  if falsy content || falsy summary then
    (.badRequest "content and summary are required", st)
  else if st.store.reachable then
    let s1 :=
      storeSet st.store now (hashContent (content.getD "")) (summary.getD "") TTL_SECONDS
    (.ok true, { st with store := s1 })
  else (.serverError "cache store failed", st)

/-- Embedding of the POST /clear-cache handler: FLUSHALL, 500 on error. -/
def clearCache (st : ServerState) : AdminResponse × ServerState :=
  if st.store.reachable then
    (.ok true "Cache cleared", { st with store := flushall st.store })
  else (.serverError "failed to clear cache", st)

/-- Embedding of the POST /reset-stats handler: zero both counters. -/
def resetStats (st : ServerState) : AdminResponse × ServerState :=
  (.ok true "Stats reset", { st with cacheHits := 0, cacheMisses := 0 })

/-- Embedding of the GET /health handler: PING inside try/catch, always
answering 200 with status ok and the connection state. -/
def health (st : ServerState) : HealthResponse :=
  if st.store.reachable then ⟨"ok", "connected"⟩ else ⟨"ok", "disconnected"⟩

/-- Whether a lookup of content c at time now finds a truthy cached value. -/
def lookupHit (s : Store) (now : Nat) (c : String) : Bool :=
  match storeGet s now (hashContent c) with
  | some cached => !(cached == "")
  | none => false

/-- A sequence of /check-summary requests, each a (time, content) pair. -/
def runLookups (st : ServerState) (reqs : List (Nat × String)) : ServerState :=
  reqs.foldl (fun s r => (checkSummary s r.1 (some r.2)).2) st

/-! ## Basic lemmas about the model -/

/-- A lookup never changes the store: only the counters move. -/
theorem checkSummary_store_eq (st : ServerState) (now : Nat) (content : Option String) :
    ((checkSummary st now content).2).store = st.store := by
  unfold checkSummary
  split
  · rfl
  · split
    · split
      · split
        · rfl
        · rfl
      · rfl
    · rfl

/-- Branch analysis of a well-formed lookup against a reachable store: it
counts a hit and returns the cached value exactly when the stored value is
present, unexpired and truthy, and otherwise counts a miss. -/
theorem checkSummary_state (st : ServerState) (now : Nat) (c : String)
    (hc : c ≠ "") (hre : st.store.reachable = true) :
    checkSummary st now (some c) =
      if lookupHit st.store now c then
        (CheckResponse.ok true (storeGet st.store now (hashContent c)),
         { st with cacheHits := st.cacheHits + 1 })
      else
        (CheckResponse.ok false none,
         { st with cacheMisses := st.cacheMisses + 1 }) := by
  have hf : falsy (some c) = false := by simp [falsy, hc]
  unfold checkSummary lookupHit
  rw [hf]
  simp only [Bool.false_eq_true, if_false, hre, if_true, Option.getD_some]
  cases hget : storeGet st.store now (hashContent c) with
  | none => simp
  | some cached =>
      by_cases hcc : cached = ""
      · subst hcc
        simp
      · simp [hcc, hget]

/-- Reading back the key just written finds the new value until it expires. -/
theorem storeGet_set_same (s : Store) (tw tl : Nat) (k v : String) (ttl : Nat) :
    storeGet (storeSet s tw k v ttl) tl k =
      if tl < tw + ttl then some v else none := by
  unfold storeGet storeSet
  simp [List.lookup]

/-- storeSet keeps the reachability flag. -/
theorem storeSet_reachable (s : Store) (tw : Nat) (k v : String) (ttl : Nat) :
    (storeSet s tw k v ttl).reachable = s.reachable := rfl

/-- A successful cache write: response, and the resulting state. -/
theorem cacheSummary_state (st : ServerState) (now : Nat) (c v : String)
    (hc : c ≠ "") (hv : v ≠ "") (hre : st.store.reachable = true) :
    cacheSummary st now (some c) (some v) =
      (StoreResponse.ok true,
       { st with store := storeSet st.store now (hashContent c) v TTL_SECONDS }) := by
  have hf : falsy (some c) = false := by simp [falsy, hc]
  have hfv : falsy (some v) = false := by simp [falsy, hv]
  unfold cacheSummary
  rw [hf, hfv]
  simp [hre]

/-- The digest always serializes to exactly 32 bytes. -/
theorem sha256_length (msg : List Nat) : (sha256 msg).length = 32 := by
  unfold sha256 hashToBytes beBytes
  simp

/-- Hex encoding yields two characters per byte. -/
theorem bytesToHex_length (bs : List Nat) : (bytesToHex bs).length = 2 * bs.length := by
  induction bs with
  | nil => rfl
  | cons b bs ih =>
      have hb : (byteToHex b).length = 2 := rfl
      simp only [bytesToHex, String.length_append, hb, ih, List.length_cons]
      omega

/-! ## Claim theorems -/

set_option maxRecDepth 10000

/-- C6: the fingerprint function is deterministic, and the key it produces is
exactly "summary:" followed by the lowercase hex encoding of the SHA-256
digest of the UTF-8 bytes of the content; hence every key has the fixed
length 72, and no normalization is performed, so two contents differing only
in the case of one character get unrelated keys. -/
theorem hashContent_deterministic_key_format :
    (∀ c1 c2 : String, c1 = c2 → hashContent c1 = hashContent c2) ∧
    (∀ c : String, hashContent c = "summary:" ++ bytesToHex (sha256 (utf8Bytes c))) ∧
    (∀ c : String, (hashContent c).length = 72) ∧
    hashContent "The sky is blue." ≠ hashContent "The sky is Blue." := by
  refine ⟨fun c1 c2 h => by rw [h], fun c => rfl, fun c => ?_, ?_⟩
  · unfold hashContent
    rw [String.length_append, bytesToHex_length, sha256_length]
    decide
  · decide

/-- C8: resetCounters zeroes the hits and misses counters, reports success,
leaves the backing store (all keys and values) untouched, and is
idempotent. -/
theorem resetCounters_zeroes_and_preserves_store (st : ServerState) :
    (resetStats st).1 = AdminResponse.ok true "Stats reset" ∧
    (resetStats st).2.cacheHits = 0 ∧
    (resetStats st).2.cacheMisses = 0 ∧
    (resetStats st).2.store = st.store ∧
    resetStats (resetStats st).2 = resetStats st :=
  ⟨rfl, rfl, rfl, rfl, rfl⟩

/-- C9: the health probe never fails the request: in every store state it
answers 200 with status ok, and its connectivity field (named valkey in the
JSON, the store-connection field of the spec) says connected exactly when the
store answers the ping, disconnected otherwise. -/
theorem health_never_fails (st : ServerState) :
    (health st).status = "ok" ∧
    ((health st).valkey = "connected" ∨ (health st).valkey = "disconnected") ∧
    ((health st).valkey = "connected" ↔ st.store.reachable = true) := by
  cases h : st.store.reachable <;> simp [health, h]

/-- A reachable server state with an empty store and zeroed counters. -/
def connectedEmptyState : ServerState := ⟨⟨[], true⟩, 0, 0⟩

/-- A server state whose store connection is down. -/
def disconnectedState : ServerState := ⟨⟨[], false⟩, 0, 0⟩

/-- C1: storing a non-empty (content, value) pair succeeds and an immediate
lookup of the same content returns hit = true with exactly the stored
value. -/
theorem store_then_lookup_roundtrip (st : ServerState) (now : Nat) (c v : String)
    (hc : c ≠ "") (hv : v ≠ "") (hre : st.store.reachable = true) :
    (cacheSummary st now (some c) (some v)).1 = StoreResponse.ok true ∧
    (checkSummary (cacheSummary st now (some c) (some v)).2 now (some c)).1
      = CheckResponse.ok true (some v) := by
  have hcs := cacheSummary_state st now c v hc hv hre
  have hre1 : (storeSet st.store now (hashContent c) v TTL_SECONDS).reachable = true := by
    rw [storeSet_reachable]; exact hre
  have hget := storeGet_set_same st.store now now (hashContent c) v TTL_SECONDS
  have hlt : now < now + TTL_SECONDS := by unfold TTL_SECONDS; omega
  rw [if_pos hlt] at hget
  have hhit : lookupHit (storeSet st.store now (hashContent c) v TTL_SECONDS) now c = true := by
    unfold lookupHit
    rw [hget]
    simp [hv]
  refine ⟨by rw [hcs], ?_⟩
  rw [hcs]
  show (checkSummary
      { st with store := storeSet st.store now (hashContent c) v TTL_SECONDS }
      now (some c)).1 = CheckResponse.ok true (some v)
  rw [checkSummary_state
      { st with store := storeSet st.store now (hashContent c) v TTL_SECONDS }
      now c hc hre1]
  simp [hhit, hget]

theorem store_then_lookup_roundtrip_witness :
    (cacheSummary connectedEmptyState 0 (some "a") (some "b")).1 = StoreResponse.ok true ∧
    (checkSummary (cacheSummary connectedEmptyState 0 (some "a") (some "b")).2
        0 (some "a")).1
      = CheckResponse.ok true (some "b") :=
  store_then_lookup_roundtrip connectedEmptyState 0 "a" "b" (by decide) (by decide) rfl

/-- C2: every write stores the entry with expiry exactly 600 seconds after
the write time, and a lookup of the same content at any time from 600
seconds onward reports hit = false. -/
theorem lookup_after_ttl_expiry (st : ServerState) (tw tl : Nat) (c v : String)
    (hc : c ≠ "") (hv : v ≠ "") (hre : st.store.reachable = true)
    (ht : tw + 600 ≤ tl) :
    TTL_SECONDS = 600 ∧
    ((cacheSummary st tw (some c) (some v)).2.store.entries.lookup (hashContent c)
      = some (Entry.mk v (tw + 600))) ∧
    (checkSummary (cacheSummary st tw (some c) (some v)).2 tl (some c)).1
      = CheckResponse.ok false none := by
  have hcs := cacheSummary_state st tw c v hc hv hre
  refine ⟨rfl, ?_, ?_⟩
  · rw [hcs]
    show (storeSet st.store tw (hashContent c) v TTL_SECONDS).entries.lookup (hashContent c)
        = some (Entry.mk v (tw + 600))
    unfold storeSet
    simp [List.lookup]
    rfl
  · have hre1 : (storeSet st.store tw (hashContent c) v TTL_SECONDS).reachable = true := by
      rw [storeSet_reachable]; exact hre
    have hget := storeGet_set_same st.store tw tl (hashContent c) v TTL_SECONDS
    have hlt : ¬ tl < tw + TTL_SECONDS := by unfold TTL_SECONDS; omega
    rw [if_neg hlt] at hget
    have hhit : lookupHit (storeSet st.store tw (hashContent c) v TTL_SECONDS) tl c = false := by
      unfold lookupHit
      rw [hget]
    rw [hcs]
    show (checkSummary
        { st with store := storeSet st.store tw (hashContent c) v TTL_SECONDS }
        tl (some c)).1 = CheckResponse.ok false none
    rw [checkSummary_state
        { st with store := storeSet st.store tw (hashContent c) v TTL_SECONDS }
        tl c hc hre1]
    simp [hhit]

theorem lookup_after_ttl_expiry_witness :
    TTL_SECONDS = 600 ∧
    ((cacheSummary connectedEmptyState 0 (some "a") (some "b")).2.store.entries.lookup
        (hashContent "a") = some (Entry.mk "b" 600)) ∧
    (checkSummary (cacheSummary connectedEmptyState 0 (some "a") (some "b")).2
        600 (some "a")).1
      = CheckResponse.ok false none :=
  lookup_after_ttl_expiry connectedEmptyState 0 600 "a" "b" (by decide) (by decide) rfl
    (by omega)

/-- C3, counterexample to the claim as stated: with the store unreachable, a
lookup of the non-empty content x does NOT degrade to hit = false; the
handler catch branch answers with the 500 error body instead. -/
theorem lookup_unreachable_not_a_miss :
    (checkSummary disconnectedState 7 (some "x")).1
      = CheckResponse.serverError "cache check failed" ∧
    (checkSummary disconnectedState 7 (some "x")).1 ≠ CheckResponse.ok false none := by
  decide

/-- C3, amended: if the backing store is unreachable when a lookup of a
non-empty content runs, the handler catches the store error and answers a 500
response with the body error = cache check failed (it does not crash, but it
also does not return hit = false); the server state is unchanged. -/
theorem lookup_unreachable_returns_500 (st : ServerState) (now : Nat) (c : String)
    (hc : c ≠ "") (hre : st.store.reachable = false) :
    checkSummary st now (some c)
      = (CheckResponse.serverError "cache check failed", st) := by
  have hf : falsy (some c) = false := by simp [falsy, hc]
  unfold checkSummary
  rw [hf, hre]
  simp

theorem lookup_unreachable_returns_500_witness :
    checkSummary disconnectedState 3 (some "y")
      = (CheckResponse.serverError "cache check failed", disconnectedState) :=
  lookup_unreachable_returns_500 disconnectedState 3 "y" (by decide) rfl

/-- C4: a store request whose content or summary field is missing or empty is
rejected as a 400 validation failure and the server state — in particular
the set of stored entries — is completely unchanged. -/
theorem store_validation_rejects_empty (st : ServerState) (now : Nat)
    (content summary : Option String)
    (h : falsy content = true ∨ falsy summary = true) :
    cacheSummary st now content summary
      = (StoreResponse.badRequest "content and summary are required", st) := by
  unfold cacheSummary
  rcases h with h | h <;> rw [h] <;> simp

theorem store_validation_rejects_empty_witness :
    cacheSummary connectedEmptyState 0 (some "") (some "x")
      = (StoreResponse.badRequest "content and summary are required",
         connectedEmptyState) ∧
    cacheSummary connectedEmptyState 0 (some "x") (some "")
      = (StoreResponse.badRequest "content and summary are required",
         connectedEmptyState) :=
  ⟨store_validation_rejects_empty connectedEmptyState 0 (some "") (some "x")
      (Or.inl (by decide)),
   store_validation_rejects_empty connectedEmptyState 0 (some "x") (some "")
      (Or.inr (by decide))⟩

/-- A predicate and its negation split the length of a list. -/
theorem countP_with_neg_eq_length {α : Type} (p : α → Bool) (l : List α) :
    l.countP p + l.countP (fun a => !p a) = l.length := by
  induction l with
  | nil => rfl
  | cons a l ih =>
      simp only [List.countP_cons, List.length_cons]
      cases h : p a <;> simp [h] <;> omega

/-- Counting over a whole sequence of lookups against a fixed reachable
store: hits grow by the number of hitting requests and misses by the number
of missing ones. -/
theorem runLookups_counts (reqs : List (Nat × String)) : ∀ st : ServerState,
    st.store.reachable = true → (∀ r ∈ reqs, r.2 ≠ "") →
    (runLookups st reqs).cacheHits
      = st.cacheHits + reqs.countP (fun r => lookupHit st.store r.1 r.2) ∧
    (runLookups st reqs).cacheMisses
      = st.cacheMisses + reqs.countP (fun r => !lookupHit st.store r.1 r.2) := by
  induction reqs with
  | nil =>
      intro st _ _
      simp [runLookups]
  | cons r rs ih =>
      intro st hre hne
      have hr2 : r.2 ≠ "" := hne r (List.mem_cons_self _ _)
      have hrs : ∀ q ∈ rs, q.2 ≠ "" := fun q hq => hne q (List.mem_cons_of_mem _ hq)
      have hrun : runLookups st (r :: rs)
          = runLookups (checkSummary st r.1 (some r.2)).2 rs := by
        simp [runLookups]
      have hstore : (checkSummary st r.1 (some r.2)).2.store = st.store :=
        checkSummary_store_eq st r.1 (some r.2)
      have hre1 : (checkSummary st r.1 (some r.2)).2.store.reachable = true := by
        rw [hstore]; exact hre
      have ihx := ih (checkSummary st r.1 (some r.2)).2 hre1 hrs
      rw [hstore] at ihx
      rw [hrun, ihx.1, ihx.2]
      have hstep := checkSummary_state st r.1 r.2 hr2 hre
      cases hhit : lookupHit st.store r.1 r.2 with
      | true =>
          rw [hstep, if_pos hhit]
          simp [List.countP_cons, hhit]
          omega
      | false =>
          rw [hstep, if_neg (by rw [hhit]; exact Bool.false_ne_true)]
          simp [List.countP_cons, hhit]
          omega

/-- C5: against a reachable store, every lookup of non-empty content bumps
exactly one of the two counters by exactly one, and over any sequence of N
such lookups of which H hit and M missed, the hits counter grows by exactly H
and the misses counter by exactly M, with H + M = N. -/
theorem lookup_increments_exactly_one (st : ServerState) (reqs : List (Nat × String))
    (hre : st.store.reachable = true) (hne : ∀ r ∈ reqs, r.2 ≠ "") :
    (∀ t c, c ≠ "" →
      ((checkSummary st t (some c)).2.cacheHits = st.cacheHits + 1 ∧
       (checkSummary st t (some c)).2.cacheMisses = st.cacheMisses) ∨
      ((checkSummary st t (some c)).2.cacheHits = st.cacheHits ∧
       (checkSummary st t (some c)).2.cacheMisses = st.cacheMisses + 1)) ∧
    (runLookups st reqs).cacheHits
      = st.cacheHits + reqs.countP (fun r => lookupHit st.store r.1 r.2) ∧
    (runLookups st reqs).cacheMisses
      = st.cacheMisses + reqs.countP (fun r => !lookupHit st.store r.1 r.2) ∧
    reqs.countP (fun r => lookupHit st.store r.1 r.2)
      + reqs.countP (fun r => !lookupHit st.store r.1 r.2) = reqs.length := by
  have hcounts := runLookups_counts reqs st hre hne
  refine ⟨?_, hcounts.1, hcounts.2, ?_⟩
  · intro t c hc
    have hstep := checkSummary_state st t c hc hre
    cases hhit : lookupHit st.store t c with
    | true =>
        left
        rw [hstep, if_pos hhit]
        exact ⟨rfl, rfl⟩
    | false =>
        right
        rw [hstep, if_neg (by rw [hhit]; exact Bool.false_ne_true)]
        exact ⟨rfl, rfl⟩
  · exact countP_with_neg_eq_length _ reqs

theorem lookup_increments_exactly_one_witness :
    (runLookups connectedEmptyState [(0, "a")]).cacheHits
      = connectedEmptyState.cacheHits
        + [(0, "a")].countP (fun r => lookupHit connectedEmptyState.store r.1 r.2) ∧
    (runLookups connectedEmptyState [(0, "a")]).cacheMisses
      = connectedEmptyState.cacheMisses
        + [(0, "a")].countP (fun r => !lookupHit connectedEmptyState.store r.1 r.2) := by
  have h := lookup_increments_exactly_one connectedEmptyState [(0, "a")] rfl (by decide)
  exact ⟨h.2.1, h.2.2.1⟩

/-- C7: clearing the cache flushes the entire key space of the store — every
key, whatever its namespace, is gone afterwards, the key count is zero — it
succeeds on an already-empty store, and it is idempotent: a second purge
returns the same response and leaves the state exactly as one purge did. -/
theorem purgeAll_flushes_everything_idempotent (st : ServerState)
    (hre : st.store.reachable = true) :
    (clearCache st).1 = AdminResponse.ok true "Cache cleared" ∧
    dbsize (clearCache st).2.store = 0 ∧
    (∀ k : String, ∀ now : Nat, storeGet (clearCache st).2.store now k = none) ∧
    clearCache (clearCache st).2 = ((clearCache st).1, (clearCache st).2) := by
  unfold clearCache flushall dbsize storeGet
  rw [hre]
  simp [List.lookup]

theorem purgeAll_flushes_everything_idempotent_witness :
    (clearCache connectedEmptyState).1 = AdminResponse.ok true "Cache cleared" ∧
    dbsize (clearCache connectedEmptyState).2.store = 0 :=
  ⟨(purgeAll_flushes_everything_idempotent connectedEmptyState rfl).1,
   (purgeAll_flushes_everything_idempotent connectedEmptyState rfl).2.1⟩

/-- A reachable server state holding one cached summary, used to exhibit a
cache hit concretely. -/
def hitState : ServerState :=
  ⟨⟨[(hashContent "a", ⟨"s", 1⟩)], true⟩, 0, 0⟩

/-- C10: whenever a lookup answers hit = true, the summary it carries is
present and non-empty — the hit branch fires only on a truthy cached value —
and independently the store endpoint rejects an empty summary value, so an
empty value can never enter the cache through it. -/
theorem hit_summary_nonempty (st : ServerState) (now : Nat)
    (content : Option String) (o : Option String)
    (hres : (checkSummary st now content).1 = CheckResponse.ok true o) :
    (∃ v, o = some v ∧ v ≠ "") ∧
    (∀ st2 : ServerState, ∀ t : Nat, ∀ c : Option String,
      (cacheSummary st2 t c (some "")).1
        = StoreResponse.badRequest "content and summary are required") := by
  constructor
  · unfold checkSummary at hres
    split at hres
    · simp at hres
    · split at hres
      · split at hres
        · split at hres
          · simp at hres
          · rename_i cached hget hcc
            simp at hres
            exact ⟨cached, by rw [hres], fun habs => hcc (by simp [habs])⟩
        · simp at hres
      · simp at hres
  · intro st2 t c
    unfold cacheSummary
    have hfv : falsy (some "") = true := by decide
    rw [hfv]
    simp

theorem hit_summary_nonempty_witness :
    ∃ v, (some "s" : Option String) = some v ∧ v ≠ "" := by
  have hres : (checkSummary hitState 0 (some "a")).1 = CheckResponse.ok true (some "s") := by
    unfold checkSummary hitState storeGet falsy
    simp [List.lookup]
  exact (hit_summary_nonempty hitState 0 (some "a") (some "s") hres).1
